import Mathlib

/-!
Verification of the installer logic of `mcp_builder/server.py`.

The Python module resolves how to launch an MCP server (remote package or
local directory), builds a launch descriptor, and merges it into the Claude
Desktop JSON configuration file.  This file gives a shallow embedding of the
pure decision logic and of the config read/modify/write cycle:

* JSON documents are modelled by the inductive type `Json`; Python `dict`s
  become association lists that preserve insertion order (`setKey` replaces
  the value of the first matching key in place, as Python dict assignment
  does, and appends otherwise).
* The on-disk state relevant to the config store is `FSState`: whether the
  parent directory of the config file exists, and the config file itself
  (absent, present-but-invalid-JSON, or a parsed document).  Serialisation is
  abstracted: a written file stores the document it serialises.
* External probing (`shutil.which`) is abstracted into boolean `ProbeFlags`;
  local-directory probing (`os.path.exists`, `os.listdir`, ...) into a
  `LocalFS` record holding the answers the code queries.
* The two resolvers return the user-facing message together with the
  `install_to_claude_desktop` call they perform, if any (`Option UpsertCall`);
  the config mutation itself is `install_to_claude_desktop` on `FSState`.
-/

/-- JSON values; objects are insertion-ordered association lists, as Python
`dict`s loaded by `json.load` are. -/
inductive Json where
  | null : Json
  | bool : Bool → Json
  | num : Int → Json
  | str : String → Json
  | arr : List Json → Json
  | obj : List (String × Json) → Json

/-- Lookup of the first binding of key `k` (Python `d[k]` / `k in d`). -/
def getKey {α : Type} (l : List (String × α)) (k : String) : Option α :=
  match l with
  | [] => none
  | (k2, v) :: rest => if k2 = k then some v else getKey rest k

/-- Python `d[k] = v` on an insertion-ordered dict: replace the value of the
first binding of `k` in place, or append a new binding. -/
def setKey {α : Type} (l : List (String × α)) (k : String) (v : α) :
    List (String × α) :=
  match l with
  | [] => [(k, v)]
  | (k2, v2) :: rest => if k2 = k then (k, v) :: rest else (k2, v2) :: setKey rest k v

/-- Python `s.split(sep)` for a one-character separator, on character lists. -/
def splitOnChar (sep : Char) : List Char → List (List Char)
  | [] => [[]]
  | c :: cs =>
    match splitOnChar sep cs with
    | [] => [[]]
    | w :: ws => if c = sep then [] :: w :: ws else (c :: w) :: ws

/-- Python `s.split(sep, 1)` guarded by `sep in s`: split at the first
occurrence of `sep`, or `none` when `sep` does not occur. -/
def splitFirstOn (sep : Char) : List Char → Option (List Char × List Char)
  | [] => none
  | c :: cs =>
    if c = sep then some ([], cs)
    else (splitFirstOn sep cs).map (fun p => (c :: p.1, p.2))

/-- `posixpath.basename`: the characters after the last `/`. -/
def basenameChars (l : List Char) : List Char :=
  (splitOnChar '/' l).getLastD []

/-- `posixpath.join(a, b)` for a single extra component. -/
def pathJoin (a b : String) : String :=
  if b.data.head? = some '/' then b
  else if a = "" ∨ a.data.getLast? = some '/' then a ++ b
  else a ++ "/" ++ b

/-- Python `s.replace(".py", "")`: remove every non-overlapping occurrence of
`.py`, scanning left to right. -/
def removeDotPy : List Char → List Char
  | '.' :: 'p' :: 'y' :: rest => removeDotPy rest
  | c :: cs => c :: removeDotPy cs
  | [] => []

/-- The character class `[a-zA-Z0-9_-]` of the sanitisation regex. -/
def isAllowedChar (c : Char) : Bool :=
  c.isAlphanum || c = '_' || c = '-'

/-- One character of `re.sub(r'[^a-zA-Z0-9_-]', '-', s)`. -/
def replaceDisallowed (c : Char) : Char :=
  if isAllowedChar c then c else '-'

/-- Scope reduction done by `install_to_claude_desktop` (server.py lines
125-128): a name starting with `@` and containing `/` is replaced by
`name.split("/")[1]`. -/
def reduceScope (l : List Char) : List Char :=
  if l.head? = some '@' ∧ '/' ∈ l then (splitOnChar '/' l).getD 1 [] else l

/-- Name normalisation of `install_to_claude_desktop` (server.py lines
123-131): scope reduction followed by `re.sub(r'[^a-zA-Z0-9_-]', '-', s)`. -/
def sanitize_server_name (name : String) : String :=
  String.mk ((reduceScope name.data).map replaceDisallowed)

/-- One step of the loop in `parse_env_vars` (server.py lines 62-65):
`if "=" in env_var: key, value = env_var.split("=", 1); env_obj[key] = value`. -/
def envStep (acc : List (String × String)) (ev : String) : List (String × String) :=
  match splitFirstOn '=' ev.data with
  | some (k, v) => setKey acc (String.mk k) (String.mk v)
  | none => acc

/-- `parse_env_vars` (server.py lines 56-67). `none` models Python `None`. -/
def parse_env_vars (env_vars : Option (List String)) : Option (List (String × String)) :=
  match env_vars with
  | none => none
  | some l =>
    if l = [] then none
    else
      let env_obj := l.foldl envStep []
      if env_obj = [] then none else some env_obj

/-- The `env` mapping as serialised into the config: Python `None` becomes
JSON `null`. -/
def jsonOfEnv : Option (List (String × String)) → Json
  | none => Json.null
  | some m => Json.obj (m.map (fun kv => (kv.1, Json.str kv.2)))

/-- The `server_config` dict built by `install_to_claude_desktop` (server.py
lines 150-162): `command` and `args` always; `env` only when the caller
passed a non-empty list (its value is `parse_env_vars(env)`, possibly
`null`); `cwd` only when non-`None` and non-empty. -/
def mkServerConfig (command : String) (args : List String)
    (env : Option (List String)) (cwd : Option String) : List (String × Json) :=
  let base := [("command", Json.str command), ("args", Json.arr (args.map Json.str))]
  let base2 :=
    match env with
    | some l => if l = [] then base else base ++ [("env", jsonOfEnv (parse_env_vars (some l)))]
    | none => base
  match cwd with
  | some c => if c = "" then base2 else base2 ++ [("cwd", Json.str c)]
  | none => base2

/-- On-disk state of the config store.  `configFile = none` means the file is
missing; `some none` means it exists but holds invalid JSON; `some (some j)`
means it parses to `j`.  `parentDirExists` is whether the directory that
should hold the config file exists. -/
structure FSState where
  parentDirExists : Bool
  configFile : Option (Option Json)

/-- `read_config` (server.py lines 32-42): `{}` when the file is missing or
its JSON is invalid, the parsed document otherwise. -/
def read_config (fs : FSState) : Json :=
  match fs.configFile with
  | some (some j) => j
  | _ => Json.obj []

/-- The inline read of `install_to_claude_desktop` (server.py lines 140-144):
`open`/`json.load` with `FileNotFoundError` and `JSONDecodeError` mapped to
`{}`.  Behaviourally identical to `read_config`. -/
def readInline (fs : FSState) : Json :=
  match fs.configFile with
  | some (some j) => j
  | _ => Json.obj []

/-- `write_config` (server.py lines 44-54): `os.makedirs(config_dir,
exist_ok=True)` then write the serialised document. -/
def write_config (_fs : FSState) (config : Json) : FSState :=
  { parentDirExists := true, configFile := some (some config) }

/-- The inline write of `install_to_claude_desktop` (server.py lines
168-169): `open(config_path, "w")` with no `makedirs`; raises
`FileNotFoundError` when the parent directory is missing. -/
def writeInline (fs : FSState) (config : Json) : Except String FSState :=
  if fs.parentDirExists then Except.ok { fs with configFile := some (some config) }
  else Except.error "FileNotFoundError"

/-- `if "mcpServers" not in config: config["mcpServers"] = {}` (server.py
lines 147-148). -/
def ensureMcp (fields : List (String × Json)) : List (String × Json) :=
  if (getKey fields "mcpServers").isSome then fields
  else setKey fields "mcpServers" (Json.obj [])

/-- `install_to_claude_desktop` (server.py lines 106-169): sanitise the name,
read the config, ensure a `mcpServers` mapping, store the server dict under
the sanitised name, write the config back.  A non-object document (or a
non-object `mcpServers` value) makes the Python code raise `TypeError`. -/
def install_to_claude_desktop (fs : FSState) (server_name command : String)
    (args : List String) (env : Option (List String)) (cwd : Option String) :
    Except String FSState :=
  match readInline fs with
  | Json.obj fields =>
    match getKey (ensureMcp fields) "mcpServers" with
    | some (Json.obj servers) =>
      writeInline fs (Json.obj (setKey (ensureMcp fields) "mcpServers"
        (Json.obj (setKey servers (sanitize_server_name server_name)
          (Json.obj (mkServerConfig command args env cwd))))))
    | _ => Except.error "TypeError"
  | _ => Except.error "TypeError"

/-- Results of the `check_command_exists` probes used by the two resolvers. -/
structure ProbeFlags where
  has_node : Bool
  has_npm : Bool
  has_npx : Bool
  has_pip : Bool
  has_python : Bool

/-- One call to `install_to_claude_desktop`, as issued by a resolver. -/
structure UpsertCall where
  server_name : String
  command : String
  args : List String
  env : Option (List String)
  cwd : Option String

/-- Message `"Neither Node.js nor Python is installed. Please install one of
them."` (server.py line 196). -/
def neitherMsg : String :=
  "Neither Node.js nor Python is installed. Please install one of them."

/-- Message of the npx success paths (server.py lines 218 and 250). -/
def npxSuccessMsg (server_name : String) : String :=
  "Successfully installed MCP server \x27" ++ server_name ++
    "\x27 via npx! Please tell the user to restart the application."

/-- Message of the Python success paths (server.py lines 233 and 261). -/
def pySuccessMsg (server_name : String) : String :=
  "Successfully installed MCP server \x27" ++ server_name ++
    "\x27 via Python! Please tell the user to restart the application."

/-- Message `"Could not determine how to install '<name>'"` (server.py line
263). -/
def couldNotMsg (name : String) : String :=
  "Could not determine how to install \x27" ++ name ++ "\x27"

/-- `install_repo_mcp_server` (server.py lines 171-263), returning the status
message and the `install_to_claude_desktop` call it performs, if any. -/
def install_repo_mcp_server (flags : ProbeFlags) (name : String)
    (args env : Option (List String)) : String × Option UpsertCall :=
  let args := args.getD []
  if flags.has_node = false ∧ flags.has_python = false then (neitherMsg, none)
  else if flags.has_npm ∧ flags.has_npx ∧
      (name.data.head? = some '@' ∨ '.' ∉ name.data) then
    let server_name :=
      if name.data.head? = some '@' ∧ '/' ∈ name.data then
        String.mk ((splitOnChar '/' name.data).getD 1 [])
      else name
    (npxSuccessMsg server_name, some ⟨server_name, "npx", name :: args, env, none⟩)
  else if flags.has_pip ∧ flags.has_python ∧ '.' ∈ name.data then
    (pySuccessMsg name, some ⟨name, "python", "-m" :: name :: args, env, none⟩)
  else if flags.has_npm ∧ flags.has_npx then
    let server_name :=
      if '/' ∈ name.data then String.mk ((splitOnChar '/' name.data).getLastD [])
      else name
    (npxSuccessMsg server_name, some ⟨server_name, "npx", name :: args, env, none⟩)
  else if flags.has_pip ∧ flags.has_python then
    let server_name :=
      if '.' ∈ name.data then String.mk ((splitOnChar '.' name.data).getLastD [])
      else name
    (pySuccessMsg server_name, some ⟨server_name, "python", "-m" :: name :: args, env, none⟩)
  else (couldNotMsg name, none)

/-- Answers to the filesystem probes `install_local_mcp_server` performs on
its `path` argument: existence, the three project markers, the parse of
`package.json` (`none` models a raised exception, with `nodeError` the
exception text), whether `os.path.join(path, m)` is a directory, and
`os.listdir(path)` in its underlying order. -/
structure LocalFS where
  pathExists : Bool
  hasPackageJson : Bool
  hasPyprojectToml : Bool
  hasSetupPy : Bool
  packageJsonParse : Option Json
  nodeError : String
  isdirJoin : String → Bool
  listing : List String

/-- Message `"Path '<path>' does not exist."` (server.py line 283). -/
def pathNotExistMsg (path : String) : String :=
  "Path \x27" ++ path ++ "\x27 does not exist."

/-- Message of the local Node.js success path (server.py line 318). -/
def nodeLocalSuccessMsg (server_name : String) : String :=
  "Successfully installed local Node.js MCP server \x27" ++ server_name ++
    "\x27! Please tell the user to restart the application."

/-- Message `"Error installing Node.js MCP server: <e>"` (server.py line 320). -/
def nodeErrorMsg (e : String) : String :=
  "Error installing Node.js MCP server: " ++ e

/-- Message of the local Python success paths (server.py lines 339 and 355). -/
def pyLocalSuccessMsg (server_name : String) : String :=
  "Successfully installed local Python MCP server \x27" ++ server_name ++
    "\x27! Please tell the user to restart the application."

/-- Final fallback message of `install_local_mcp_server` (server.py line 357). -/
def couldNotLocalMsg (path : String) : String :=
  "Could not determine how to install MCP server from \x27" ++ path ++
    "\x27. Make sure it\x27s a valid Node.js or Python project."

/-- `install_local_mcp_server` (server.py lines 265-357), returning the
status message and the `install_to_claude_desktop` call it performs, if
any. -/
def install_local_mcp_server (flags : ProbeFlags) (d : LocalFS) (path : String)
    (args env : Option (List String)) : String × Option UpsertCall :=
  let args := args.getD []
  if d.pathExists = false then (pathNotExistMsg path, none)
  else
    let server_name := String.mk (basenameChars path.data)
    if d.hasPackageJson ∧ flags.has_node ∧ flags.has_npm then
      match d.packageJsonParse with
      | some (Json.obj pj) =>
        match getKey pj "main" with
        | some (Json.str m) =>
          (nodeLocalSuccessMsg server_name,
            some ⟨server_name, "node", pathJoin path m :: args, env, none⟩)
        | none =>
          (nodeLocalSuccessMsg server_name,
            some ⟨server_name, "node", pathJoin path "index.js" :: args, env, none⟩)
        | some _ => (nodeErrorMsg d.nodeError, none)
      | _ => (nodeErrorMsg d.nodeError, none)
    else if (d.hasPyprojectToml ∨ d.hasSetupPy) ∧ flags.has_python then
      let module_name :=
        String.mk ((basenameChars path.data).map (fun ch => if ch = '-' then '_' else ch))
      if d.isdirJoin module_name then
        (pyLocalSuccessMsg server_name,
          some ⟨server_name, "python", "-m" :: module_name :: args, env, some path⟩)
      else
        match d.listing.filter (fun f => ".py".data.isSuffixOf f.data && !(f == "setup.py")) with
        | f :: _ =>
          let main_file := String.mk (removeDotPy f.data)
          (pyLocalSuccessMsg server_name,
            some ⟨server_name, "python", pathJoin path (main_file ++ ".py") :: args, env, none⟩)
        | [] => (couldNotLocalMsg path, none)
    else (couldNotLocalMsg path, none)

theorem getKey_setKey_self {α : Type} (l : List (String × α)) (k : String) (v : α) :
    getKey (setKey l k v) k = some v := by
  induction l with
  | nil => simp [setKey, getKey]
  | cons hd tl ih =>
    obtain ⟨k2, v2⟩ := hd
    by_cases h : k2 = k
    · simp [setKey, getKey, h]
    · simp [setKey, getKey, h, ih]

theorem getKey_setKey_ne {α : Type} (l : List (String × α)) (k k2 : String) (v : α)
    (h : k2 ≠ k) : getKey (setKey l k v) k2 = getKey l k2 := by
  induction l with
  | nil => simp [setKey, getKey, Ne.symm h]
  | cons hd tl ih =>
    obtain ⟨k3, v3⟩ := hd
    by_cases h3 : k3 = k
    · subst h3
      simp [setKey, getKey, Ne.symm h]
    · simp [setKey, getKey, h3]
      by_cases h4 : k3 = k2 <;> simp [h4, ih]

theorem setKey_setKey_same {α : Type} (l : List (String × α)) (k : String) (v v2 : α) :
    setKey (setKey l k v) k v2 = setKey l k v2 := by
  induction l with
  | nil => simp [setKey]
  | cons hd tl ih =>
    obtain ⟨k3, v3⟩ := hd
    by_cases h : k3 = k
    · simp [setKey, h]
    · simp [setKey, h, ih]

theorem splitOnChar_ne_nil (sep : Char) (l : List Char) : splitOnChar sep l ≠ [] := by
  cases l with
  | nil => simp [splitOnChar]
  | cons c cs =>
    simp only [splitOnChar]
    cases h : splitOnChar sep cs with
    | nil => simp
    | cons w ws =>
      by_cases hc : c = sep <;> simp [hc]

theorem splitOnChar_not_mem (sep : Char) (l : List Char) (h : sep ∉ l) :
    splitOnChar sep l = [l] := by
  induction l with
  | nil => rfl
  | cons c cs ih =>
    have hc : c ≠ sep := fun e => h (by simp [e])
    have hcs : sep ∉ cs := fun e => h (by simp [e])
    simp only [splitOnChar, ih hcs]
    simp [hc]

theorem splitOnChar_append (sep : Char) (xs ys : List Char) (h : sep ∉ xs) :
    splitOnChar sep (xs ++ sep :: ys) = xs :: splitOnChar sep ys := by
  induction xs with
  | nil => simp only [List.nil_append, splitOnChar]
           cases hs : splitOnChar sep ys with
           | nil => exact absurd hs (splitOnChar_ne_nil sep ys)
           | cons w ws => simp
  | cons c cs ih =>
    have hc : c ≠ sep := fun e => h (by simp [e])
    have hcs : sep ∉ cs := fun e => h (by simp [e])
    simp only [List.cons_append, splitOnChar, List.append_eq]
    rw [ih hcs]
    simp [hc]

theorem splitFirstOn_not_mem (sep : Char) (l : List Char) (h : sep ∉ l) :
    splitFirstOn sep l = none := by
  induction l with
  | nil => rfl
  | cons c cs ih =>
    have hc : c ≠ sep := fun e => h (by simp [e])
    have hcs : sep ∉ cs := fun e => h (by simp [e])
    simp [splitFirstOn, hc, ih hcs]

theorem splitFirstOn_append (sep : Char) (xs ys : List Char) (h : sep ∉ xs) :
    splitFirstOn sep (xs ++ sep :: ys) = some (xs, ys) := by
  induction xs with
  | nil => simp [splitFirstOn]
  | cons c cs ih =>
    have hc : c ≠ sep := fun e => h (by simp [e])
    have hcs : sep ∉ cs := fun e => h (by simp [e])
    simp [splitFirstOn, hc, ih hcs]

theorem head_of_append (pre mid post : String) (c : Char) (h : pre.data.head? = some c) :
    ((pre ++ mid) ++ post).data.head? = some c := by
  rw [String.data_append, String.data_append]
  cases hp : pre.data with
  | nil => rw [hp] at h; cases h
  | cons a as =>
    rw [hp] at h
    simp only [List.head?] at h
    injection h with h
    subst h
    simp

theorem ne_of_head {a b : String} {ca cb : Char} (ha : a.data.head? = some ca)
    (hb : b.data.head? = some cb) (hne : ca ≠ cb) : a ≠ b := by
  intro e
  rw [e, hb] at ha
  exact hne (Option.some.inj ha).symm

theorem npxSuccessMsg_head (sn : String) : (npxSuccessMsg sn).data.head? = some 'S' :=
  head_of_append _ _ _ 'S' rfl

theorem pySuccessMsg_head (sn : String) : (pySuccessMsg sn).data.head? = some 'S' :=
  head_of_append _ _ _ 'S' rfl

theorem couldNotMsg_head (nm : String) : (couldNotMsg nm).data.head? = some 'C' :=
  head_of_append _ _ _ 'C' rfl

theorem npx_ne_neither (sn : String) : npxSuccessMsg sn ≠ neitherMsg :=
  ne_of_head (npxSuccessMsg_head sn) rfl (by decide)

theorem npx_ne_couldnot (sn nm : String) : npxSuccessMsg sn ≠ couldNotMsg nm :=
  ne_of_head (npxSuccessMsg_head sn) (couldNotMsg_head nm) (by decide)

theorem py_ne_neither (sn : String) : pySuccessMsg sn ≠ neitherMsg :=
  ne_of_head (pySuccessMsg_head sn) rfl (by decide)

theorem py_ne_couldnot (sn nm : String) : pySuccessMsg sn ≠ couldNotMsg nm :=
  ne_of_head (pySuccessMsg_head sn) (couldNotMsg_head nm) (by decide)

theorem ensureMcp_of_some (fields : List (String × Json)) (v : Json)
    (h : getKey fields "mcpServers" = some v) : ensureMcp fields = fields := by
  simp [ensureMcp, h]

theorem ensureMcp_of_none (fields : List (String × Json))
    (h : getKey fields "mcpServers" = none) :
    ensureMcp fields = setKey fields "mcpServers" (Json.obj []) := by
  simp [ensureMcp, h]

theorem install_ok (fs : FSState) (fields servers : List (String × Json))
    (n c : String) (a : List String) (e : Option (List String)) (w : Option String)
    (hdir : fs.parentDirExists = true) (hread : readInline fs = Json.obj fields)
    (hm : getKey fields "mcpServers" = some (Json.obj servers)) :
    install_to_claude_desktop fs n c a e w
      = Except.ok ⟨true, some (some (Json.obj (setKey fields "mcpServers"
          (Json.obj (setKey servers (sanitize_server_name n)
            (Json.obj (mkServerConfig c a e w)))))))⟩ := by
  obtain ⟨pd, cf⟩ := fs
  simp only [FSState.parentDirExists] at hdir
  subst hdir
  unfold install_to_claude_desktop
  rw [hread]
  dsimp only
  rw [ensureMcp_of_some fields _ hm, hm]
  dsimp only
  simp [writeInline]

theorem install_ok_none (fs : FSState) (fields : List (String × Json))
    (n c : String) (a : List String) (e : Option (List String)) (w : Option String)
    (hdir : fs.parentDirExists = true) (hread : readInline fs = Json.obj fields)
    (hm : getKey fields "mcpServers" = none) :
    install_to_claude_desktop fs n c a e w
      = Except.ok ⟨true, some (some (Json.obj (setKey fields "mcpServers"
          (Json.obj [(sanitize_server_name n, Json.obj (mkServerConfig c a e w))]))))⟩ := by
  obtain ⟨pd, cf⟩ := fs
  simp only [FSState.parentDirExists] at hdir
  subst hdir
  unfold install_to_claude_desktop
  rw [hread]
  dsimp only
  rw [ensureMcp_of_none fields hm, getKey_setKey_self]
  dsimp only
  rw [setKey_setKey_same]
  simp [writeInline, setKey]

theorem install_shape (fs : FSState) (n c : String) (a : List String)
    (e : Option (List String)) (w : Option String) :
    (∃ m, install_to_claude_desktop fs n c a e w = Except.error m) ∨
    (∃ doc, install_to_claude_desktop fs n c a e w = writeInline fs doc) := by
  unfold install_to_claude_desktop
  cases readInline fs with
  | obj fields =>
    dsimp only
    cases getKey (ensureMcp fields) "mcpServers" with
    | none => exact Or.inl ⟨"TypeError", rfl⟩
    | some v =>
      cases v with
      | obj servers =>
        exact Or.inr ⟨Json.obj (setKey (ensureMcp fields) "mcpServers"
          (Json.obj (setKey servers (sanitize_server_name n)
            (Json.obj (mkServerConfig c a e w))))), rfl⟩
      | null => exact Or.inl ⟨"TypeError", rfl⟩
      | bool b => exact Or.inl ⟨"TypeError", rfl⟩
      | num x => exact Or.inl ⟨"TypeError", rfl⟩
      | str s => exact Or.inl ⟨"TypeError", rfl⟩
      | arr xs => exact Or.inl ⟨"TypeError", rfl⟩
  | null => exact Or.inl ⟨"TypeError", rfl⟩
  | bool b => exact Or.inl ⟨"TypeError", rfl⟩
  | num x => exact Or.inl ⟨"TypeError", rfl⟩
  | str s => exact Or.inl ⟨"TypeError", rfl⟩
  | arr xs => exact Or.inl ⟨"TypeError", rfl⟩

theorem install_no_dir (fs : FSState) (n c : String) (a : List String)
    (e : Option (List String)) (w : Option String) (fs2 : FSState)
    (hdir : fs.parentDirExists = false) :
    install_to_claude_desktop fs n c a e w ≠ Except.ok fs2 := by
  intro hcon
  rcases install_shape fs n c a e w with ⟨m, hm⟩ | ⟨doc, hd⟩
  · rw [hm] at hcon
    cases hcon
  · rw [hd] at hcon
    simp [writeInline, hdir] at hcon

theorem foldl_envStep_malformed (l : List String) (acc : List (String × String))
    (h : ∀ e ∈ l, '=' ∉ e.data) : l.foldl envStep acc = acc := by
  induction l generalizing acc with
  | nil => rfl
  | cons e rest ih =>
    have he : '=' ∉ e.data := h e (by simp)
    have hr : ∀ x ∈ rest, '=' ∉ x.data := fun x hx => h x (by simp [hx])
    simp only [List.foldl_cons]
    rw [show envStep acc e = acc from by simp [envStep, splitFirstOn_not_mem _ _ he]]
    exact ih _ hr

theorem replaceDisallowed_allowed (c : Char) : isAllowedChar (replaceDisallowed c) = true := by
  unfold replaceDisallowed
  by_cases h : isAllowedChar c
  · simp [h]
  · simp [h]
    decide

/-- Claim C9: for every raw name, the sanitised identifier contains only
characters from `[A-Za-z0-9_-]`; a scoped name `@scope/pkg` (one `/`)
sanitises to the sanitised form of `pkg` alone; and for names that are not
scope-reduced, every character outside the class is replaced by `-`
(character-wise replacement). -/
theorem c9_sanitization (name scope pkg : String) :
    (∀ c ∈ (sanitize_server_name name).data, isAllowedChar c = true)
    ∧ (name = "@" ++ scope ++ "/" ++ pkg → '/' ∉ scope.data → '/' ∉ pkg.data →
        sanitize_server_name name = sanitize_server_name pkg)
    ∧ (¬(name.data.head? = some '@' ∧ '/' ∈ name.data) →
        sanitize_server_name name = String.mk (name.data.map replaceDisallowed)) := by
  refine ⟨?_, ?_, ?_⟩
  · intro c hc
    have : c ∈ (reduceScope name.data).map replaceDisallowed := hc
    rcases List.mem_map.mp this with ⟨c2, _, he⟩
    rw [← he]
    exact replaceDisallowed_allowed c2
  · intro hn hs hp
    subst hn
    have hdata : ("@" ++ scope ++ "/" ++ pkg).data = ('@' :: scope.data) ++ '/' :: pkg.data := by
      rw [String.data_append, String.data_append, String.data_append]
      simp [List.append_assoc]
    unfold sanitize_server_name reduceScope
    rw [hdata]
    have hnotmem : '/' ∉ '@' :: scope.data := by
      intro h
      rcases List.mem_cons.mp h with h | h
      · cases h
      · exact hs h
    rw [if_pos ⟨by simp, by simp⟩]
    rw [splitOnChar_append '/' _ _ hnotmem, splitOnChar_not_mem '/' pkg.data hp]
    rw [if_neg (fun hcon => hp hcon.2)]
    rfl
  · intro h
    unfold sanitize_server_name reduceScope
    rw [if_neg h]

/-- Claim C9 witness: instantiation at `@sc!/p+kg`. -/
theorem c9_witness :
    sanitize_server_name "@sc!/p+kg" = sanitize_server_name "p+kg"
    ∧ sanitize_server_name "p+kg" = "p-kg"
    ∧ isAllowedChar '-' = true :=
  ⟨(c9_sanitization "@sc!/p+kg" "sc!" "p+kg").2.1 rfl (by decide) (by decide),
   rfl,
   (c9_sanitization "@sc!/p+kg" "sc!" "p+kg").1 '-' (by decide)⟩

/-- Claim C2 (amended): env entries are split at the first `=` only (values
may contain `=`); entries with no `=` are dropped; an empty or absent env
input yields a ServerEntry with no `env` field; but a NON-empty input all of
whose entries are malformed yields an `env` field present with value JSON
`null` (the code stores `parse_env_vars(env)`, which is `None`); parsing
`["A=1","B=2=x"]` yields exactly `{A: "1", B: "2=x"}`. -/
theorem c2_env_parsing (cm : String) (a : List String) (w : Option String)
    (l : List String) (kd vd : List Char)
    (hl : l ≠ []) (hml : ∀ e ∈ l, '=' ∉ e.data) (hk : '=' ∉ kd) :
    parse_env_vars none = none
    ∧ parse_env_vars (some []) = none
    ∧ getKey (mkServerConfig cm a none w) "env" = none
    ∧ getKey (mkServerConfig cm a (some []) w) "env" = none
    ∧ parse_env_vars (some l) = none
    ∧ getKey (mkServerConfig cm a (some l) w) "env" = some Json.null
    ∧ parse_env_vars (some [String.mk (kd ++ '=' :: vd)]) = some [(String.mk kd, String.mk vd)]
    ∧ parse_env_vars (some ["A=1", "B=2=x"]) = some [("A", "1"), ("B", "2=x")] := by
  have h5 : parse_env_vars (some l) = none := by
    simp only [parse_env_vars]
    rw [if_neg hl]
    simp only [foldl_envStep_malformed l [] hml]
    simp
  refine ⟨rfl, rfl, ?_, ?_, h5, ?_, ?_, rfl⟩
  · cases w with
    | none => rfl
    | some cw =>
      by_cases hcw : cw = ""
      · subst hcw; rfl
      · simp only [mkServerConfig]
        rw [if_neg hcw]
        rfl
  · cases w with
    | none => rfl
    | some cw =>
      by_cases hcw : cw = ""
      · subst hcw; rfl
      · simp only [mkServerConfig]
        rw [if_neg hcw]
        rfl
  · simp only [mkServerConfig]
    rw [if_neg hl, h5]
    cases w with
    | none => rfl
    | some cw =>
      by_cases hcw : cw = ""
      · subst hcw; rfl
      · simp only []
        rw [if_neg hcw]
        rfl
  · simp only [parse_env_vars]
    rw [if_neg (by simp : ¬([String.mk (kd ++ '=' :: vd)] = []))]
    simp only [List.foldl, envStep]
    rw [splitFirstOn_append '=' kd vd hk]
    simp [setKey]

/-- Claim C2 counterexample: a non-empty env list all of whose entries are
malformed (`["novalue"]`) yields a stored ServerEntry that DOES have an
`env` field, with value JSON `null`, contradicting "no env field at all". -/
theorem c2_counterexample :
    getKey (mkServerConfig "cmd" [] (some ["novalue"]) none) "env" = some Json.null
    ∧ install_to_claude_desktop ⟨true, none⟩ "srv" "cmd" [] (some ["novalue"]) none
      = Except.ok ⟨true, some (some (Json.obj [("mcpServers", Json.obj [("srv",
          Json.obj [("command", Json.str "cmd"), ("args", Json.arr []),
            ("env", Json.null)])])]))⟩ :=
  ⟨rfl, rfl⟩

/-- Claim C2 witness: instantiation at env `["novalue"]` and at the
key-value pair `K=V=2`. -/
theorem c2_witness :
    parse_env_vars (some ["novalue"]) = none
    ∧ getKey (mkServerConfig "cmd" [] (some ["novalue"]) none) "env" = some Json.null
    ∧ parse_env_vars (some [String.mk (['K'] ++ '=' :: ['V', '=', '2'])])
        = some [(String.mk ['K'], String.mk ['V', '=', '2'])]
    ∧ parse_env_vars (some ["A=1", "B=2=x"]) = some [("A", "1"), ("B", "2=x")] :=
  ⟨(c2_env_parsing "cmd" [] none ["novalue"] ['K'] ['V', '=', '2']
      (by decide) (by decide) (by decide)).2.2.2.2.1,
   (c2_env_parsing "cmd" [] none ["novalue"] ['K'] ['V', '=', '2']
      (by decide) (by decide) (by decide)).2.2.2.2.2.1,
   (c2_env_parsing "cmd" [] none ["novalue"] ['K'] ['V', '=', '2']
      (by decide) (by decide) (by decide)).2.2.2.2.2.2.1,
   (c2_env_parsing "cmd" [] none ["novalue"] ['K'] ['V', '=', '2']
      (by decide) (by decide) (by decide)).2.2.2.2.2.2.2⟩

/-- Claim C1 (amended): with pip and python present, a name containing `.`
and the npm branch not applicable, `install_repo_mcp_server` builds a
descriptor whose command is `python` with args `["-m", name]` ++ extra args;
but the entry is stored under the SANITISED name (characters outside
`[A-Za-z0-9_-]`, including `.`, replaced by `-`), not the raw name:
resolving `"my.module"` stores the entry under `"my-module"`. -/
theorem c1_python_branch (flags : ProbeFlags) (name : String)
    (args env : Option (List String)) (fs : FSState)
    (fields servers : List (String × Json))
    (hpip : flags.has_pip = true) (hpy : flags.has_python = true)
    (hdot : '.' ∈ name.data)
    (hnA : ¬(flags.has_npm ∧ flags.has_npx ∧
      (name.data.head? = some '@' ∨ '.' ∉ name.data)))
    (hdir : fs.parentDirExists = true)
    (hread : readInline fs = Json.obj fields)
    (hm : getKey fields "mcpServers" = some (Json.obj servers)) :
    install_repo_mcp_server flags name args env
      = (pySuccessMsg name, some ⟨name, "python", "-m" :: name :: args.getD [], env, none⟩)
    ∧ install_to_claude_desktop fs name "python" ("-m" :: name :: args.getD []) env none
      = Except.ok ⟨true, some (some (Json.obj (setKey fields "mcpServers"
          (Json.obj (setKey servers (sanitize_server_name name)
            (Json.obj (mkServerConfig "python" ("-m" :: name :: args.getD []) env none)))))))⟩
    ∧ getKey (setKey servers (sanitize_server_name name)
          (Json.obj (mkServerConfig "python" ("-m" :: name :: args.getD []) env none)))
        (sanitize_server_name name)
      = some (Json.obj (mkServerConfig "python" ("-m" :: name :: args.getD []) env none))
    ∧ sanitize_server_name "my.module" = "my-module" := by
  refine ⟨?_, install_ok fs fields servers name "python" _ env none hdir hread hm,
    getKey_setKey_self servers (sanitize_server_name name) _, rfl⟩
  unfold install_repo_mcp_server
  rw [if_neg (fun hcon => by rw [hpy] at hcon; cases hcon.2)]
  rw [if_neg hnA]
  rw [if_pos ⟨hpip, hpy, hdot⟩]

/-- Claim C1 counterexample: the full remote-resolve of `"my.module"` with
only pip/python applicable stores the entry under key `"my-module"`, not
under the raw name `"my.module"`. -/
theorem c1_counterexample :
    install_repo_mcp_server ⟨true, false, false, true, true⟩ "my.module" none none
      = (pySuccessMsg "my.module",
          some ⟨"my.module", "python", ["-m", "my.module"], none, none⟩)
    ∧ install_to_claude_desktop ⟨true, none⟩ "my.module" "python" ["-m", "my.module"] none none
      = Except.ok ⟨true, some (some (Json.obj [("mcpServers", Json.obj [("my-module",
          Json.obj [("command", Json.str "python"),
            ("args", Json.arr [Json.str "-m", Json.str "my.module"])])])]))⟩
    ∧ getKey [("my-module", Json.obj [("command", Json.str "python"),
          ("args", Json.arr [Json.str "-m", Json.str "my.module"])])] "my.module" = none :=
  ⟨rfl, rfl, rfl⟩

/-- Claim C1 witness: instantiation at `"my.module"` with pip/python present
and npm absent, over a config holding an empty `mcpServers` mapping. -/
theorem c1_witness :
    install_repo_mcp_server ⟨true, false, false, true, true⟩ "my.module" none none
      = (pySuccessMsg "my.module",
          some ⟨"my.module", "python", ["-m", "my.module"], none, none⟩)
    ∧ install_to_claude_desktop ⟨true, some (some (Json.obj [("mcpServers", Json.obj [])]))⟩
        "my.module" "python" ["-m", "my.module"] none none
      = Except.ok ⟨true, some (some (Json.obj [("mcpServers", Json.obj [("my-module",
          Json.obj (mkServerConfig "python" ["-m", "my.module"] none none))])]))⟩
    ∧ getKey [("my-module", Json.obj (mkServerConfig "python" ["-m", "my.module"] none none))]
        "my-module"
      = some (Json.obj (mkServerConfig "python" ["-m", "my.module"] none none))
    ∧ sanitize_server_name "my.module" = "my-module" := by
  have h := c1_python_branch ⟨true, false, false, true, true⟩ "my.module" none none
    ⟨true, some (some (Json.obj [("mcpServers", Json.obj [])]))⟩
    [("mcpServers", Json.obj [])] [] rfl rfl (by decide) (by decide) rfl rfl rfl
  exact ⟨h.1, h.2.1, h.2.2.1, h.2.2.2⟩

theorem install_doc_not_obj (fs : FSState) (n c : String) (a : List String)
    (e : Option (List String)) (w : Option String) (v : Json)
    (hr : readInline fs = v) (hv : ∀ f, v ≠ Json.obj f) :
    install_to_claude_desktop fs n c a e w = Except.error "TypeError" := by
  unfold install_to_claude_desktop
  rw [hr]
  cases v with
  | obj f => exact absurd rfl (hv f)
  | null => rfl
  | bool b => rfl
  | num x => rfl
  | str s => rfl
  | arr xs => rfl

theorem install_server_not_obj (fs : FSState) (fields : List (String × Json))
    (n c : String) (a : List String) (e : Option (List String)) (w : Option String)
    (v : Json) (hr : readInline fs = Json.obj fields)
    (hg : getKey fields "mcpServers" = some v)
    (hv : ∀ s, v ≠ Json.obj s) :
    install_to_claude_desktop fs n c a e w = Except.error "TypeError" := by
  unfold install_to_claude_desktop
  rw [hr]
  dsimp only
  rw [ensureMcp_of_some fields _ hg, hg]
  cases v with
  | obj s => exact absurd rfl (hv s)
  | null => rfl
  | bool b => rfl
  | num x => rfl
  | str s => rfl
  | arr xs => rfl

/-- Claim C3 (amended): the installer upsert performs read, ensures a
`mcpServers` mapping exists, sets `mcpServers[name]` to the serialised
descriptor, then writes the full document back; but the write performed by
the upsert does NOT create the config file's parent directories — it fails
when they are missing.  Only the separate `write_config` helper (which the
upsert does not call) creates parent directories before writing. -/
theorem c3_upsert_cycle (fs : FSState) (fields servers : List (String × Json))
    (n c : String) (a : List String) (e : Option (List String)) (w : Option String)
    (g : FSState) (doc : Json) (fs2 fs3 : FSState)
    (hdir : fs.parentDirExists = true)
    (hread : readInline fs = Json.obj fields)
    (hm : getKey fields "mcpServers" = some (Json.obj servers))
    (h2 : fs2.parentDirExists = false) :
    install_to_claude_desktop fs n c a e w
      = Except.ok ⟨true, some (some (Json.obj (setKey fields "mcpServers"
          (Json.obj (setKey servers (sanitize_server_name n)
            (Json.obj (mkServerConfig c a e w)))))))⟩
    ∧ write_config g doc = ⟨true, some (some doc)⟩
    ∧ install_to_claude_desktop fs2 n c a e w ≠ Except.ok fs3 :=
  ⟨install_ok fs fields servers n c a e w hdir hread hm, rfl,
   install_no_dir fs2 n c a e w fs3 h2⟩

/-- Claim C3 counterexample: at a state whose config directory is missing,
the upsert raises `FileNotFoundError` instead of creating the directory,
while `write_config` (which the upsert does not use) would create it. -/
theorem c3_counterexample :
    install_to_claude_desktop ⟨false, none⟩ "srv" "cmd" [] none none
      = Except.error "FileNotFoundError"
    ∧ write_config ⟨false, none⟩ (Json.obj []) = ⟨true, some (some (Json.obj []))⟩ :=
  ⟨rfl, rfl⟩

/-- Claim C3 witness: instantiation over a config with an empty `mcpServers`
mapping, and a directory-less state for the failure conjunct. -/
theorem c3_witness :
    install_to_claude_desktop ⟨true, some (some (Json.obj [("mcpServers", Json.obj [])]))⟩
        "srv" "cmd" [] none none
      = Except.ok ⟨true, some (some (Json.obj [("mcpServers", Json.obj [("srv",
          Json.obj (mkServerConfig "cmd" [] none none))])]))⟩
    ∧ write_config ⟨false, none⟩ (Json.obj []) = ⟨true, some (some (Json.obj []))⟩
    ∧ install_to_claude_desktop ⟨false, none⟩ "srv" "cmd" [] none none
        ≠ Except.ok ⟨true, none⟩ := by
  have h := c3_upsert_cycle ⟨true, some (some (Json.obj [("mcpServers", Json.obj [])]))⟩
    [("mcpServers", Json.obj [])] [] "srv" "cmd" [] none none
    ⟨false, none⟩ (Json.obj []) ⟨false, none⟩ ⟨true, none⟩ rfl rfl rfl rfl
  exact ⟨h.1, h.2.1, h.2.2⟩

/-- Claim C5: installing over a prior document whose `mcpServers` mapping
already contains the sanitised target name overwrites only that entry: every
other `mcpServers` entry and every unrelated top-level key of the document is
unchanged by the read-merge-write cycle. -/
theorem c5_frame (fs : FSState) (fields servers : List (String × Json))
    (n c : String) (a : List String) (e : Option (List String)) (w : Option String)
    (e0 : Json) (tk sk : String)
    (hdir : fs.parentDirExists = true)
    (hread : readInline fs = Json.obj fields)
    (hm : getKey fields "mcpServers" = some (Json.obj servers))
    (_hex : getKey servers (sanitize_server_name n) = some e0)
    (htk : tk ≠ "mcpServers") (hsk : sk ≠ sanitize_server_name n) :
    install_to_claude_desktop fs n c a e w
      = Except.ok ⟨true, some (some (Json.obj (setKey fields "mcpServers"
          (Json.obj (setKey servers (sanitize_server_name n)
            (Json.obj (mkServerConfig c a e w)))))))⟩
    ∧ getKey (setKey fields "mcpServers" (Json.obj (setKey servers (sanitize_server_name n)
        (Json.obj (mkServerConfig c a e w))))) tk = getKey fields tk
    ∧ getKey (setKey servers (sanitize_server_name n)
        (Json.obj (mkServerConfig c a e w))) sk = getKey servers sk
    ∧ getKey (setKey servers (sanitize_server_name n)
        (Json.obj (mkServerConfig c a e w))) (sanitize_server_name n)
      = some (Json.obj (mkServerConfig c a e w)) :=
  ⟨install_ok fs fields servers n c a e w hdir hread hm,
   getKey_setKey_ne fields "mcpServers" tk _ htk,
   getKey_setKey_ne servers (sanitize_server_name n) sk _ hsk,
   getKey_setKey_self servers (sanitize_server_name n) _⟩

/-- Claim C5 witness: a document with an unrelated top-level key `other`, a
sibling entry `sib` and an existing entry `srv`; installing over `srv`
keeps `other` and `sib` unchanged. -/
theorem c5_witness :
    install_to_claude_desktop ⟨true, some (some (Json.obj [("other", Json.str "keep"),
        ("mcpServers", Json.obj [("srv", Json.str "old"), ("sib", Json.str "s")])]))⟩
        "srv" "cmd" [] none none
      = Except.ok ⟨true, some (some (Json.obj [("other", Json.str "keep"),
          ("mcpServers", Json.obj [("srv", Json.obj (mkServerConfig "cmd" [] none none)),
            ("sib", Json.str "s")])]))⟩
    ∧ getKey [("other", Json.str "keep"),
          ("mcpServers", Json.obj [("srv", Json.obj (mkServerConfig "cmd" [] none none)),
            ("sib", Json.str "s")])] "other"
      = getKey [("other", Json.str "keep"),
          ("mcpServers", Json.obj [("srv", Json.str "old"), ("sib", Json.str "s")])] "other"
    ∧ getKey [("srv", Json.obj (mkServerConfig "cmd" [] none none)), ("sib", Json.str "s")] "sib"
      = getKey [("srv", Json.str "old"), ("sib", Json.str "s")] "sib"
    ∧ getKey [("srv", Json.obj (mkServerConfig "cmd" [] none none)), ("sib", Json.str "s")] "srv"
      = some (Json.obj (mkServerConfig "cmd" [] none none)) := by
  have h := c5_frame ⟨true, some (some (Json.obj [("other", Json.str "keep"),
      ("mcpServers", Json.obj [("srv", Json.str "old"), ("sib", Json.str "s")])]))⟩
    [("other", Json.str "keep"),
      ("mcpServers", Json.obj [("srv", Json.str "old"), ("sib", Json.str "s")])]
    [("srv", Json.str "old"), ("sib", Json.str "s")]
    "srv" "cmd" [] none none (Json.str "old") "other" "sib"
    rfl rfl rfl rfl (by decide) (by decide)
  exact ⟨h.1, h.2.1, h.2.2.1, h.2.2.2⟩

/-- Claim C7 (amended): whenever the config file is missing or holds invalid
JSON, the read returns the empty document `{}`; and provided the config
directory exists (as it does in particular whenever the file itself exists
with invalid JSON), a subsequent upsert succeeds and produces a fresh
well-formed document containing the new entry.  (When the directory is also
missing, the upsert write fails instead.) -/
theorem c7_read_recovery (fs : FSState) (n c : String) (a : List String)
    (e : Option (List String)) (w : Option String)
    (hmiss : fs.configFile = none ∨ fs.configFile = some none) :
    read_config fs = Json.obj []
    ∧ (fs.parentDirExists = true →
        install_to_claude_desktop fs n c a e w
          = Except.ok ⟨true, some (some (Json.obj [("mcpServers",
              Json.obj [(sanitize_server_name n,
                Json.obj (mkServerConfig c a e w))])]))⟩) := by
  have hread : readInline fs = Json.obj [] := by
    rcases hmiss with h | h <;> simp [readInline, h]
  constructor
  · rcases hmiss with h | h <;> simp [read_config, h]
  · intro hdir
    exact install_ok_none fs [] n c a e w hdir hread rfl

/-- Claim C7 counterexample: when the config file is missing because its
directory is missing, the read still returns `{}` but the subsequent upsert
fails with `FileNotFoundError` rather than succeeding. -/
theorem c7_counterexample :
    read_config ⟨false, none⟩ = Json.obj []
    ∧ install_to_claude_desktop ⟨false, none⟩ "srv" "cmd" [] none none
      = Except.error "FileNotFoundError" :=
  ⟨rfl, rfl⟩

/-- Claim C7 witness: an existing config file with invalid JSON — the read
yields `{}` and the upsert produces a fresh document with the new entry. -/
theorem c7_witness :
    read_config ⟨true, some none⟩ = Json.obj []
    ∧ install_to_claude_desktop ⟨true, some none⟩ "srv" "cmd" [] none none
      = Except.ok ⟨true, some (some (Json.obj [("mcpServers",
          Json.obj [("srv", Json.obj (mkServerConfig "cmd" [] none none))])]))⟩ :=
  ⟨(c7_read_recovery ⟨true, some none⟩ "srv" "cmd" [] none none (Or.inr rfl)).1,
   (c7_read_recovery ⟨true, some none⟩ "srv" "cmd" [] none none (Or.inr rfl)).2 rfl⟩

/-- Claim C8: the upsert is idempotent under identical input — after a
successful install, repeating the same install leaves the on-disk state
exactly as it was after the first call. -/
theorem c8_idempotent (fs fs1 : FSState) (n c : String) (a : List String)
    (e : Option (List String)) (w : Option String)
    (h : install_to_claude_desktop fs n c a e w = Except.ok fs1) :
    install_to_claude_desktop fs1 n c a e w = Except.ok fs1 := by
  cases hpd : fs.parentDirExists with
  | false => exact absurd h (install_no_dir fs n c a e w fs1 hpd)
  | true =>
    cases hr : readInline fs with
    | obj fields =>
      cases hg : getKey fields "mcpServers" with
      | none =>
        have hi := install_ok_none fs fields n c a e w hpd hr hg
        rw [h] at hi
        injection hi with hi
        subst hi
        have h2 := install_ok
          ⟨true, some (some (Json.obj (setKey fields "mcpServers"
            (Json.obj [(sanitize_server_name n, Json.obj (mkServerConfig c a e w))]))))⟩
          (setKey fields "mcpServers"
            (Json.obj [(sanitize_server_name n, Json.obj (mkServerConfig c a e w))]))
          [(sanitize_server_name n, Json.obj (mkServerConfig c a e w))]
          n c a e w rfl rfl (getKey_setKey_self _ _ _)
        rw [h2]
        rw [show setKey [(sanitize_server_name n, Json.obj (mkServerConfig c a e w))]
            (sanitize_server_name n) (Json.obj (mkServerConfig c a e w))
            = [(sanitize_server_name n, Json.obj (mkServerConfig c a e w))] from by
          simp [setKey]]
        rw [setKey_setKey_same]
      | some v =>
        cases v with
        | obj servers =>
          have hi := install_ok fs fields servers n c a e w hpd hr hg
          rw [h] at hi
          injection hi with hi
          subst hi
          have h2 := install_ok
            ⟨true, some (some (Json.obj (setKey fields "mcpServers"
              (Json.obj (setKey servers (sanitize_server_name n)
                (Json.obj (mkServerConfig c a e w)))))))⟩
            (setKey fields "mcpServers"
              (Json.obj (setKey servers (sanitize_server_name n)
                (Json.obj (mkServerConfig c a e w)))))
            (setKey servers (sanitize_server_name n) (Json.obj (mkServerConfig c a e w)))
            n c a e w rfl rfl (getKey_setKey_self _ _ _)
          rw [h2, setKey_setKey_same, setKey_setKey_same]
        | null =>
          rw [install_server_not_obj fs fields n c a e w _ hr hg
            (fun s hcon => by cases hcon)] at h
          cases h
        | bool b =>
          rw [install_server_not_obj fs fields n c a e w _ hr hg
            (fun s hcon => by cases hcon)] at h
          cases h
        | num x =>
          rw [install_server_not_obj fs fields n c a e w _ hr hg
            (fun s hcon => by cases hcon)] at h
          cases h
        | str s2 =>
          rw [install_server_not_obj fs fields n c a e w _ hr hg
            (fun s hcon => by cases hcon)] at h
          cases h
        | arr xs =>
          rw [install_server_not_obj fs fields n c a e w _ hr hg
            (fun s hcon => by cases hcon)] at h
          cases h
    | null =>
      rw [install_doc_not_obj fs n c a e w _ hr (fun f hcon => by cases hcon)] at h
      cases h
    | bool b =>
      rw [install_doc_not_obj fs n c a e w _ hr (fun f hcon => by cases hcon)] at h
      cases h
    | num x =>
      rw [install_doc_not_obj fs n c a e w _ hr (fun f hcon => by cases hcon)] at h
      cases h
    | str s =>
      rw [install_doc_not_obj fs n c a e w _ hr (fun f hcon => by cases hcon)] at h
      cases h
    | arr xs =>
      rw [install_doc_not_obj fs n c a e w _ hr (fun f hcon => by cases hcon)] at h
      cases h

/-- Claim C8 witness: a concrete double install of the same entry. -/
theorem c8_witness :
    install_to_claude_desktop ⟨true, none⟩ "a" "cmd" [] none none
      = Except.ok ⟨true, some (some (Json.obj [("mcpServers",
          Json.obj [("a", Json.obj (mkServerConfig "cmd" [] none none))])]))⟩
    ∧ install_to_claude_desktop ⟨true, some (some (Json.obj [("mcpServers",
          Json.obj [("a", Json.obj (mkServerConfig "cmd" [] none none))])]))⟩
        "a" "cmd" [] none none
      = Except.ok ⟨true, some (some (Json.obj [("mcpServers",
          Json.obj [("a", Json.obj (mkServerConfig "cmd" [] none none))])]))⟩ :=
  ⟨rfl, c8_idempotent ⟨true, none⟩ _ "a" "cmd" [] none none rfl⟩

/-- Claim C6: `install_repo_mcp_server` performs exactly one upsert on each
success path and zero config mutations on each failure path — the returned
call is absent precisely when the message is one of the two failure
messages; with neither node nor python present it returns the descriptive
failure message immediately with no install; and when no decision rule
matches it returns the could-not-determine message with no install. -/
theorem c6_side_effects (flags flags2 flags3 : ProbeFlags) (name : String)
    (args env : Option (List String))
    (h2 : flags2.has_node = false ∧ flags2.has_python = false)
    (h3a : ¬(flags3.has_npm ∧ flags3.has_npx))
    (h3b : ¬(flags3.has_pip ∧ flags3.has_python))
    (h3c : flags3.has_node = true ∨ flags3.has_python = true) :
    ((install_repo_mcp_server flags name args env).2 = none ↔
      ((install_repo_mcp_server flags name args env).1 = neitherMsg ∨
       (install_repo_mcp_server flags name args env).1 = couldNotMsg name))
    ∧ install_repo_mcp_server flags2 name args env = (neitherMsg, none)
    ∧ install_repo_mcp_server flags3 name args env = (couldNotMsg name, none) := by
  refine ⟨?_, ?_, ?_⟩
  · unfold install_repo_mcp_server
    by_cases h0 : flags.has_node = false ∧ flags.has_python = false
    · simp only [if_pos h0]
      simp
    · rw [if_neg h0]
      by_cases hc1 : flags.has_npm ∧ flags.has_npx ∧
          (name.data.head? = some '@' ∨ '.' ∉ name.data)
      · simp only [if_pos hc1]
        simp [npx_ne_neither, npx_ne_couldnot]
      · rw [if_neg hc1]
        by_cases hc2 : flags.has_pip ∧ flags.has_python ∧ '.' ∈ name.data
        · simp only [if_pos hc2]
          simp [py_ne_neither, py_ne_couldnot]
        · rw [if_neg hc2]
          by_cases hc3 : flags.has_npm ∧ flags.has_npx
          · simp only [if_pos hc3]
            simp [npx_ne_neither, npx_ne_couldnot]
          · rw [if_neg hc3]
            by_cases hc4 : flags.has_pip ∧ flags.has_python
            · simp only [if_pos hc4]
              simp [py_ne_neither, py_ne_couldnot]
            · rw [if_neg hc4]
              simp
  · unfold install_repo_mcp_server
    rw [if_pos h2]
  · unfold install_repo_mcp_server
    rw [if_neg (fun hcon => by
      rcases h3c with h | h
      · rw [h] at hcon; cases hcon.1
      · rw [h] at hcon; cases hcon.2)]
    rw [if_neg (fun hcon => h3a ⟨hcon.1, hcon.2.1⟩)]
    rw [if_neg (fun hcon => h3b ⟨hcon.1, hcon.2.1⟩)]
    rw [if_neg h3a]
    rw [if_neg h3b]

/-- Claim C6 witness: instantiation at a success path (npm tools), the
neither-runtime path, and the no-rule path (node only). -/
theorem c6_witness :
    ((install_repo_mcp_server ⟨true, true, true, false, false⟩ "pkg" none none).2 = none ↔
      ((install_repo_mcp_server ⟨true, true, true, false, false⟩ "pkg" none none).1 = neitherMsg ∨
       (install_repo_mcp_server ⟨true, true, true, false, false⟩ "pkg" none none).1
         = couldNotMsg "pkg"))
    ∧ install_repo_mcp_server ⟨false, true, true, true, false⟩ "pkg" none none
        = (neitherMsg, none)
    ∧ install_repo_mcp_server ⟨true, false, false, false, true⟩ "pkg" none none
        = (couldNotMsg "pkg", none) := by
  have h := c6_side_effects ⟨true, true, true, false, false⟩ ⟨false, true, true, true, false⟩
    ⟨true, false, false, false, true⟩ "pkg" none none ⟨rfl, rfl⟩
    (by decide) (by decide) (Or.inl rfl)
  exact ⟨h.1, h.2.1, h.2.2⟩

/-- Claim C4 (failing input for the code bug): a local Python project whose
only root source file is `a.py.py`.  Python's `str.replace(".py", "")`
removes EVERY `".py"` occurrence from the first matching file name before
one `".py"` is re-appended, so the stored entry invokes `/p/proj/a.py` — not
the first matching source file `/p/proj/a.py.py` as the claim (and the
spec's "use the first as the entry file") requires. -/
theorem c4_replace_bug :
    install_local_mcp_server ⟨false, false, false, true, true⟩
        ⟨true, false, true, false, none, "", fun _ => false, ["a.py.py"]⟩ "/p/proj" none none
      = (pyLocalSuccessMsg "proj",
          some ⟨"proj", "python", ["/p/proj/a.py"], none, none⟩)
    ∧ pathJoin "/p/proj" "a.py.py" = "/p/proj/a.py.py"
    ∧ String.mk (removeDotPy "a.py.py".data) ++ ".py" = "a.py" :=
  ⟨rfl, rfl, rfl⟩

/-- Claim C10: an existing Python project directory path written with a
trailing separator (`"/home/user/proj/"`) has base name `""`; sanitisation
maps `""` to `""`; the module-directory probe (`os.path.join(path, "")`
refers to the project directory itself, which is a directory) succeeds, and
the ServerEntry is stored in the config under the empty-string key. -/
theorem c10_empty_name :
    String.mk (basenameChars "/home/user/proj/".data) = ""
    ∧ install_local_mcp_server ⟨false, false, false, true, true⟩
        ⟨true, false, true, false, none, "", fun m => m == "", []⟩ "/home/user/proj/" none none
      = (pyLocalSuccessMsg "",
          some ⟨"", "python", ["-m", ""], none, some "/home/user/proj/"⟩)
    ∧ sanitize_server_name "" = ""
    ∧ install_to_claude_desktop ⟨true, none⟩ "" "python" ["-m", ""] none
        (some "/home/user/proj/")
      = Except.ok ⟨true, some (some (Json.obj [("mcpServers", Json.obj [("",
          Json.obj [("command", Json.str "python"),
            ("args", Json.arr [Json.str "-m", Json.str ""]),
            ("cwd", Json.str "/home/user/proj/")])])]))⟩ :=
  ⟨rfl, rfl, rfl, rfl⟩
